import Mathlib

/-!
Shallow embedding of the Internet-of-Models execution core
(`src/lib/api.ts` together with the data model of `src/types`).

The TypeScript code is asynchronous and keeps its state in the `spark.kv`
store; here the store is threaded explicitly as a `St` value, the network
(`fetch`) is an oracle supplied in a `Ctx` value, and thrown JavaScript
`Error`s become `Except` results.  JavaScript `number` fields are embedded
as `ℚ`; timestamps and generated identifiers are supplied by the context.
-/

namespace IoM

/-- JSON-like values (the `any` payloads of the TypeScript code). -/
inductive Json where
  | null
  | bool (b : Bool)
  | num (q : ℚ)
  | str (s : String)
  | arr (elems : List Json)
  | obj (fields : List (String × Json))

/-- `status` field of `ModelMetadata`: `'online' | 'offline' | 'error'`. -/
inductive ModelStatus where
  | online
  | offline
  | error
deriving DecidableEq

/-- `modelType` field: `'llm' | 'vision' | 'tabular' | 'audio' | 'embedding' | 'custom'`. -/
inductive ModelType where
  | llm
  | vision
  | tabular
  | audio
  | embedding
  | custom
deriving DecidableEq

/-- `securityPolicy` field: `'public' | 'org-only' | 'private'`. -/
inductive SecurityPolicy where
  | publicPolicy
  | orgOnly
  | privatePolicy
deriving DecidableEq

/-- `status` field of `PipelineExecution`:
`'pending' | 'running' | 'completed' | 'failed'`. -/
inductive ExecStatus where
  | pending
  | running
  | completed
  | failed
deriving DecidableEq

/-- `status` field of `ModelInvocation`: `'pending' | 'success' | 'error'`. -/
inductive InvocStatus where
  | pending
  | success
  | error
deriving DecidableEq

/-- The `ModelMetadata` interface of `src/types`.  Optional (`?`) fields
become `Option`; `number` becomes `ℚ`. -/
structure ModelMetadata where
  id : String
  name : String
  owner : String
  endpoint : String
  modelType : ModelType
  inputSchema : Json
  outputSchema : Json
  latency : ℚ
  costPerToken : Option ℚ
  securityPolicy : SecurityPolicy
  apiKey : Option String
  status : ModelStatus
  healthCheckUrl : Option String
  description : Option String
  tags : List String
  createdAt : String
  lastChecked : Option String

/-- `Omit<ModelMetadata, 'id' | 'createdAt' | 'lastChecked'>`, the argument
type of `ModelRegistry.registerModel`. -/
structure ModelRegistrationData where
  name : String
  owner : String
  endpoint : String
  modelType : ModelType
  inputSchema : Json
  outputSchema : Json
  latency : ℚ
  costPerToken : Option ℚ
  securityPolicy : SecurityPolicy
  apiKey : Option String
  status : ModelStatus
  healthCheckUrl : Option String
  description : Option String
  tags : List String

/-- `Partial<ModelMetadata>`, the `updates` argument of
`ModelRegistry.updateModel`: every field optional, `none` meaning the key
is absent from the update object. -/
structure ModelUpdate where
  id : Option String := none
  name : Option String := none
  owner : Option String := none
  endpoint : Option String := none
  modelType : Option ModelType := none
  inputSchema : Option Json := none
  outputSchema : Option Json := none
  latency : Option ℚ := none
  costPerToken : Option (Option ℚ) := none
  securityPolicy : Option SecurityPolicy := none
  apiKey : Option (Option String) := none
  status : Option ModelStatus := none
  healthCheckUrl : Option (Option String) := none
  description : Option (Option String) := none
  tags : Option (List String) := none
  createdAt : Option String := none
  lastChecked : Option (Option String) := none

/-- The object spread `{ ...models[index], ...updates }` of
`ModelRegistry.updateModel`: a field present in the update object wins,
every other field keeps its previous value. -/
def applyUpdate (m : ModelMetadata) (u : ModelUpdate) : ModelMetadata where
  id := u.id.getD m.id
  name := u.name.getD m.name
  owner := u.owner.getD m.owner
  endpoint := u.endpoint.getD m.endpoint
  modelType := u.modelType.getD m.modelType
  inputSchema := u.inputSchema.getD m.inputSchema
  outputSchema := u.outputSchema.getD m.outputSchema
  latency := u.latency.getD m.latency
  costPerToken := u.costPerToken.getD m.costPerToken
  securityPolicy := u.securityPolicy.getD m.securityPolicy
  apiKey := u.apiKey.getD m.apiKey
  status := u.status.getD m.status
  healthCheckUrl := u.healthCheckUrl.getD m.healthCheckUrl
  description := u.description.getD m.description
  tags := u.tags.getD m.tags
  createdAt := u.createdAt.getD m.createdAt
  lastChecked := u.lastChecked.getD m.lastChecked

/-- `ModelRegistry.getAllModels` reads the stored list, so the store is the
list itself; `ModelRegistry.getModelById`:
`models.find(m => m.id === id) || null`. -/
def getModelById (id : String) (models : List ModelMetadata) : Option ModelMetadata :=
  models.find? (fun m => m.id == id)

/-- `ModelRegistry.registerModel`: spreads the payload, assigns the freshly
generated `id` and `createdAt` (both produced from the clock and a random
suffix, supplied here as arguments), pushes the record onto the stored
list, and returns the new record. -/
def registerModel (payload : ModelRegistrationData) (freshId createdAt : String)
    (models : List ModelMetadata) : ModelMetadata × List ModelMetadata :=
  let newModel : ModelMetadata :=
    { id := freshId
      name := payload.name
      owner := payload.owner
      endpoint := payload.endpoint
      modelType := payload.modelType
      inputSchema := payload.inputSchema
      outputSchema := payload.outputSchema
      latency := payload.latency
      costPerToken := payload.costPerToken
      securityPolicy := payload.securityPolicy
      apiKey := payload.apiKey
      status := payload.status
      healthCheckUrl := payload.healthCheckUrl
      description := payload.description
      tags := payload.tags
      createdAt := createdAt
      lastChecked := none }
  (newModel, models ++ [newModel])

/-- `ModelRegistry.updateModel`: `findIndex` on the stored list; `-1` yields
`null` with no write; otherwise the entry at the found index is replaced by
the spread merge and the merged entry is returned. -/
def updateModel (id : String) (u : ModelUpdate) (models : List ModelMetadata) :
    Option ModelMetadata × List ModelMetadata :=
  match models.findIdx? (fun m => m.id == id) with
  | none => (none, models)
  | some index =>
    match models.get? index with
    | none => (none, models)
    | some m =>
      let merged := applyUpdate m u
      (some merged, models.set index merged)

/-- A node of the `Pipeline` interface (`src/types`). -/
structure PipelineNode where
  id : String
  modelId : String
  posX : ℚ
  posY : ℚ
  config : List (String × Json)

/-- An edge of the `Pipeline` interface (`src/types`). -/
structure PipelineEdge where
  id : String
  source : String
  target : String
  sourceHandle : Option String := none
  targetHandle : Option String := none

/-- The `Pipeline` interface (`src/types`). -/
structure Pipeline where
  id : String
  name : String
  description : Option String := none
  nodes : List PipelineNode
  edges : List PipelineEdge
  createdAt : String
  updatedAt : String
  owner : String
  isPublic : Bool

/-- `tokenUsage` of `ModelInvocation` (`src/types`). -/
structure TokenUsage where
  input : ℚ
  output : ℚ
  total : ℚ

/-- The `ModelInvocation` interface (`src/types`).  The execution engine
never constructs one, but the record type carries the field. -/
structure ModelInvocation where
  id : String
  modelId : String
  input : Json
  output : Option Json := none
  errorMessage : Option String := none
  latency : ℚ
  tokenUsage : Option TokenUsage := none
  timestamp : String
  status : InvocStatus

/-- The `PipelineExecution` interface (`src/types`). -/
structure PipelineExecution where
  id : String
  pipelineId : String
  status : ExecStatus
  startedAt : String
  completedAt : Option String := none
  invocations : List ModelInvocation
  totalLatency : Option ℚ := none
  totalCost : Option ℚ := none

/-- The HTTP request handed to `fetch` by
`ExecutionEngine.invokeSingleModel`.  The wire body is
`JSON.stringify(input)`; the body is represented here by the JSON value it
serializes. -/
structure Request where
  url : String
  method : String
  headers : List (String × String)
  body : Json

/-- JavaScript truthiness of the optional `apiKey` string, as tested by
`if (model.apiKey)`: absent and empty strings are falsy. -/
def apiKeyTruthy : Option String → Bool
  | none => false
  | some k => !(k == "")

/-- Request construction of `ExecutionEngine.invokeSingleModel`:
`POST` to `model.endpoint`, a `Content-Type: application/json` header, an
`Authorization: Bearer <apiKey>` header exactly when `model.apiKey` is
truthy, body the serialized input. -/
def mkRequest (model : ModelMetadata) (input : Json) : Request where
  url := model.endpoint
  method := "POST"
  headers :=
    ("Content-Type", "application/json") ::
      (match model.apiKey with
       | some k => if k == "" then [] else [("Authorization", "Bearer " ++ k)]
       | none => [])
  body := input

/-- Header lookup in a request, for stating properties of `mkRequest`. -/
def lookupHeader (req : Request) (name : String) : Option String :=
  (req.headers.find? (fun p => p.1 == name)).map (fun p => p.2)

/-- `Math.round`: round half toward positive infinity. -/
def jsRound (q : ℚ) : ℚ := ((⌊q + 1 / 2⌋ : ℤ) : ℚ)

/-- Possible behaviours of one `fetch` call: the promise rejects
(`netFailure`), or a response arrives with its `ok` flag, `statusText`,
and JSON body (`none` when `response.json()` rejects). -/
inductive FetchResult where
  | netFailure
  | reply (ok : Bool) (statusText : String) (jsonBody : Option Json)

/-- Behaviour of one `fetch` call together with the elapsed time
`Date.now() - startTime` observed for it. -/
structure FetchBehavior where
  result : FetchResult
  elapsed : ℕ

/-- Ambient context of a run: the network oracle (indexed by the number of
`fetch` calls already issued), the wall-clock strings produced by
`new Date().toISOString()`, the generated execution id, and the total
elapsed time of the run. -/
structure Ctx where
  oracle : ℕ → FetchBehavior
  now : String
  freshExecId : String
  startedAt : String
  runElapsed : ℚ

/-- The threaded state: the two `spark.kv` collections the engine touches
(`models`, `executions`), plus the observable network activity (requests
issued, in order, and their count). -/
structure St where
  models : List ModelMetadata
  executions : List PipelineExecution
  trace : List Request
  fetchCount : ℕ

/-- The JavaScript `Error`s thrown by `ExecutionEngine.invokeSingleModel`. -/
inductive InvokeError where
  | modelNotFound (modelId : String)
  | invocationFailed (statusText : String)
  | netFailure
  | jsonFailure

/-- The `catch` branch of `invokeSingleModel`: mark the model `error` and
stamp `lastChecked` before rethrowing. -/
def markError (ctx : Ctx) (modelId : String) (st : St) : St :=
  { st with models :=
      (updateModel modelId { status := some .error, lastChecked := some (some ctx.now) }
        st.models).2 }

/-- `ExecutionEngine.invokeSingleModel`: resolve the model (throwing
`Model <id> not found` before the `try` block when absent), issue the
`fetch`, throw on a non-`ok` response, parse the JSON body, update the
model's rolling latency and set it `online` on success; on any error after
resolution, mark the model `error` and rethrow. -/
def invokeSingleModel (ctx : Ctx) (modelId : String) (input : Json) (st : St) :
    Except InvokeError Json × St :=
  match getModelById modelId st.models with
  | none => (.error (.modelNotFound modelId), st)
  | some model =>
    let st1 : St :=
      { st with trace := st.trace ++ [mkRequest model input],
                fetchCount := st.fetchCount + 1 }
    let beh := ctx.oracle st.fetchCount
    match beh.result with
    | .netFailure => (.error .netFailure, markError ctx modelId st1)
    | .reply ok statusText jsonBody =>
      if ok then
        match jsonBody with
        | none => (.error .jsonFailure, markError ctx modelId st1)
        | some output =>
          let updatedLatency := jsRound ((model.latency + (beh.elapsed : ℚ)) / 2)
          let st2 : St :=
            { st1 with models :=
                (updateModel modelId
                  { latency := some updatedLatency, status := some .online,
                    lastChecked := some (some ctx.now) } st1.models).2 }
          (.ok output, st2)
      else (.error (.invocationFailed statusText), markError ctx modelId st1)

/-- The `for (const node of pipeline.nodes)` loop of
`ExecutionEngine.executePipeline`: each node's model is invoked on the
previous output; the first thrown error aborts the loop. -/
def runNodes (ctx : Ctx) (nodes : List PipelineNode) (cur : Json) (st : St) :
    Except InvokeError Json × St :=
  match nodes with
  | [] => (.ok cur, st)
  | node :: rest =>
    match invokeSingleModel ctx node.modelId cur st with
    | (.ok out, st') => runNodes ctx rest out st'
    | (.error e, st') => (.error e, st')

/-- `ExecutionEngine.executePipeline`: build the execution record (status
`running`, empty `invocations`), run the nodes sequentially inside
`try`/`catch` — edges are never consulted — set the final status to
`completed` (with `totalLatency`) or `failed`, push the record onto the
stored `executions` list, and return it.  The `invocations` field is never
appended to. -/
def executePipeline (ctx : Ctx) (pipeline : Pipeline) (initialInput : Json) (st : St) :
    PipelineExecution × St :=
  let r := runNodes ctx pipeline.nodes initialInput st
  let execution : PipelineExecution :=
    match r.1 with
    | .ok _ =>
      { id := ctx.freshExecId, pipelineId := pipeline.id, status := .completed,
        startedAt := ctx.startedAt, completedAt := some ctx.now,
        invocations := [], totalLatency := some ctx.runElapsed, totalCost := none }
    | .error _ =>
      { id := ctx.freshExecId, pipelineId := pipeline.id, status := .failed,
        startedAt := ctx.startedAt, completedAt := some ctx.now,
        invocations := [], totalLatency := none, totalCost := none }
  (execution, { r.2 with executions := r.2.executions ++ [execution] })

/-- Key lookup in a JSON object's field list. -/
def jsonLookup (fields : List (String × Json)) (key : String) : Option Json :=
  (fields.find? (fun p => p.1 == key)).map (fun p => p.2)

/-- Fuel-indexed structural equality of JSON values (the fuel only bounds
the recursion depth; any fuel at least the depth of the values is exact). -/
def jsonEqWith : ℕ → Json → Json → Bool
  | 0, _, _ => false
  | _ + 1, .null, .null => true
  | _ + 1, .bool a, .bool b => a == b
  | _ + 1, .num a, .num b => a == b
  | _ + 1, .str a, .str b => a == b
  | fuel + 1, .arr xs, .arr ys =>
    xs.length == ys.length &&
      (xs.zip ys).all (fun p => jsonEqWith fuel p.1 p.2)
  | fuel + 1, .obj xs, .obj ys =>
    xs.length == ys.length &&
      (xs.zip ys).all (fun p => p.1.1 == p.2.1 && jsonEqWith fuel p.1.2 p.2.2)
  | _ + 1, _, _ => false

/-- A schema violation: the offending path and a reason. -/
structure ValidationFault where
  path : String
  reason : String

/-- Does a JSON value match a JSON-Schema `type` string?  Unknown type
names are ignored (forward-compatible). -/
def typeMatches (t : String) (v : Json) : Bool :=
  match t with
  | "object" => match v with | .obj _ => true | _ => false
  | "array" => match v with | .arr _ => true | _ => false
  | "string" => match v with | .str _ => true | _ => false
  | "number" => match v with | .num _ => true | _ => false
  | "integer" => match v with | .num q => q.den == 1 | _ => false
  | "boolean" => match v with | .bool _ => true | _ => false
  | _ => true

/-- Modelled from the spec: the Schema Validator of §4.1 is declared in the
repository's API documentation only as a stub (`validateInput`); no body
exists under `src/`.  Per the spec it checks `type`
(object/array/string/number/integer/boolean), `required` properties,
`enum`, numeric `minimum`/`maximum`, and string `maxLength`, recursing
into declared `properties`; unknown schema keywords are ignored and the
first violation is reported with its path.  Fuel bounds the recursion
depth. -/
def validateWith : ℕ → Json → Json → String → Option ValidationFault
  | 0, _, _, _ => none
  | fuel + 1, schema, value, path =>
    match schema with
    | .obj fields =>
      let typeFault : Option ValidationFault :=
        match jsonLookup fields "type" with
        | some (.str t) => if typeMatches t value then none else some ⟨path, "type"⟩
        | _ => none
      let requiredFault : Option ValidationFault :=
        match jsonLookup fields "required", value with
        | some (.arr keys), .obj vfields =>
          (keys.filterMap (fun k =>
            match k with
            | .str k =>
              if (jsonLookup vfields k).isSome then none
              else some (⟨path ++ "/" ++ k, "required"⟩ : ValidationFault)
            | _ => none)).head?
        | _, _ => none
      let enumFault : Option ValidationFault :=
        match jsonLookup fields "enum" with
        | some (.arr options) =>
          if options.any (fun o => jsonEqWith fuel o value) then none
          else some ⟨path, "enum"⟩
        | _ => none
      let minFault : Option ValidationFault :=
        match jsonLookup fields "minimum", value with
        | some (.num lo), .num q => if q < lo then some ⟨path, "minimum"⟩ else none
        | _, _ => none
      let maxFault : Option ValidationFault :=
        match jsonLookup fields "maximum", value with
        | some (.num hi), .num q => if hi < q then some ⟨path, "maximum"⟩ else none
        | _, _ => none
      let lenFault : Option ValidationFault :=
        match jsonLookup fields "maxLength", value with
        | some (.num n), .str s =>
          if n < (s.length : ℚ) then some ⟨path, "maxLength"⟩ else none
        | _, _ => none
      let propsFault : Option ValidationFault :=
        match jsonLookup fields "properties", value with
        | some (.obj props), .obj vfields =>
          (props.filterMap (fun p =>
            match jsonLookup vfields p.1 with
            | some v => validateWith fuel p.2 v (path ++ "/" ++ p.1)
            | none => none)).head?
        | _, _ => none
      (typeFault.or (requiredFault.or (enumFault.or
        (minFault.or (maxFault.or (lenFault.or propsFault))))))
    | _ => none

/-- Modelled from the spec: top-level entry of the Schema Validator
(§4.1), with enough fuel for any value pair. -/
def validate (schema value : Json) : Option ValidationFault :=
  validateWith 1000 schema value ""

/-- The `GraphError` kinds of the spec's Graph Resolver (§4.3). -/
inductive GraphErrorKind where
  | cycle
  | danglingEdge
deriving DecidableEq

/-- Insert a string into a lexically sorted list. -/
def insertSorted (a : String) : List String → List String
  | [] => [a]
  | b :: rest => if a ≤ b then a :: b :: rest else b :: insertSorted a rest

/-- Lexical insertion sort, for the determinism clause of §4.3. -/
def sortIds : List String → List String
  | [] => []
  | a :: rest => insertSorted a (sortIds rest)

/-- Modelled from the spec: one round structure of Kahn's algorithm (§4.3).
Nodes with in-degree zero under the remaining edges form the next level
(in lexical node-id order); their outgoing edges are removed; if no node
is ready while nodes remain, the graph has a cycle.  The Graph Resolver
exists nowhere under `src/`; the execution engine ignores edges
entirely. -/
def kahnRounds : ℕ → List String → List PipelineEdge → Except GraphErrorKind (List (List String))
  | _, [], _ => .ok []
  | 0, _ :: _, _ => .error .cycle
  | fuel + 1, remaining, edges =>
    let ready := remaining.filter
      (fun nid => (edges.filter (fun e => e.target == nid)).isEmpty)
    if ready.isEmpty then .error .cycle
    else
      let readySorted := sortIds ready
      let rest := remaining.filter (fun nid => !(ready.contains nid))
      let remainingEdges := edges.filter (fun e => !(ready.contains e.source))
      (kahnRounds fuel rest remainingEdges).map (fun levels => readySorted :: levels)

/-- Modelled from the spec: the Graph Resolver contract
`resolve(graph) -> ExecutionPlan | GraphError` (§4.3): dangling edges are
detected before Kahn's algorithm runs; a drained queue with nodes left
means a cycle. -/
def resolveGraph (nodes : List PipelineNode) (edges : List PipelineEdge) :
    Except GraphErrorKind (List (List String)) :=
  let ids := nodes.map (fun n => n.id)
  if edges.all (fun e => ids.contains e.source && ids.contains e.target) then
    kahnRounds nodes.length ids edges
  else .error .danglingEdge

theorem updateModel_nil (id : String) (u : ModelUpdate) :
    updateModel id u [] = (none, []) := rfl

theorem updateModel_cons (id : String) (u : ModelUpdate) (m : ModelMetadata)
    (models : List ModelMetadata) :
    updateModel id u (m :: models) =
      if m.id == id then (some (applyUpdate m u), applyUpdate m u :: models)
      else ((updateModel id u models).1, m :: (updateModel id u models).2) := by
  by_cases h : m.id == id
  · simp [updateModel, List.findIdx?_cons, h]
  · simp only [updateModel, List.findIdx?_cons, h, if_neg, Bool.false_eq_true,
      if_false, List.findIdx?_succ]
    cases hidx : models.findIdx? (fun x => x.id == id) with
    | none => simp [h]
    | some i =>
      cases hget : models[i]? with
      | none => simp [h, hget]
      | some mm => simp [h, hget]

theorem applyUpdate_keeps_id (m : ModelMetadata) (u : ModelUpdate) (hu : u.id = none) :
    (applyUpdate m u).id = m.id := by
  simp [applyUpdate, hu]

theorem updateModel_found (id : String) (u : ModelUpdate) (hu : u.id = none) :
    ∀ (models : List ModelMetadata) (m : ModelMetadata),
      getModelById id models = some m →
      (updateModel id u models).1 = some (applyUpdate m u) ∧
      getModelById id (updateModel id u models).2 = some (applyUpdate m u) := by
  intro models
  induction models with
  | nil => intro m h; simp [getModelById] at h
  | cons x xs ih =>
    intro m h
    by_cases hx : x.id == id
    · have hm : x = m := by
        simpa [getModelById, List.find?_cons, hx] using h
      subst hm
      rw [updateModel_cons, if_pos hx]
      refine ⟨rfl, ?_⟩
      have : ((applyUpdate x u).id == id) = true := by
        rw [applyUpdate_keeps_id _ _ hu]; exact hx
      simp [getModelById, List.find?_cons, this]
    · have h' : getModelById id xs = some m := by
        simpa [getModelById, List.find?_cons, hx] using h
      rw [updateModel_cons, if_neg (by simpa using hx)]
      refine ⟨(ih m h').1, ?_⟩
      simpa [getModelById, List.find?_cons, hx] using (ih m h').2

theorem updateModel_preserves_executions :
    ∀ (id : String) (u : ModelUpdate) (st : St),
      ({ st with models := (updateModel id u st.models).2 } : St).executions =
        st.executions := by
  intro id u st; rfl

theorem invokeSingleModel_executions (ctx : Ctx) (modelId : String) (input : Json)
    (st : St) : ((invokeSingleModel ctx modelId input st).2).executions = st.executions := by
  rw [invokeSingleModel]
  cases hm : getModelById modelId st.models with
  | none => rfl
  | some model =>
    cases hb : (ctx.oracle st.fetchCount).result with
    | netFailure => simp [hb, markError]
    | reply ok statusText jsonBody =>
      cases ok with
      | false => simp [hb, markError]
      | true =>
        cases jsonBody with
        | none => simp [hb, markError]
        | some output => simp [hb]

theorem runNodes_executions (ctx : Ctx) :
    ∀ (nodes : List PipelineNode) (cur : Json) (st : St),
      ((runNodes ctx nodes cur st).2).executions = st.executions := by
  intro nodes
  induction nodes with
  | nil => intro cur st; rfl
  | cons n rest ih =>
    intro cur st
    rw [runNodes]
    cases h : invokeSingleModel ctx n.modelId cur st with
    | mk res st' =>
      have hst' : st'.executions = st.executions := by
        have := invokeSingleModel_executions ctx n.modelId cur st
        rw [h] at this; exact this
      cases res with
      | ok out => simpa using (ih out st').trans hst'
      | error e => simpa using hst'

/-! ### Concrete fixtures used by witnesses and counterexamples -/

/-- A small input schema: an object with a required string `prompt`
(the registration form's default schema). -/
def schemaPrompt : Json :=
  .obj [("type", .str "object"),
        ("properties", .obj [("prompt", .obj [("type", .str "string")])]),
        ("required", .arr [.str "prompt"])]

/-- A concrete model record builder for fixtures. -/
def fixModel (id endpoint : String) (latency : ℚ) (apiKey : Option String)
    (status : ModelStatus) : ModelMetadata where
  id := id
  name := id
  owner := "owner"
  endpoint := endpoint
  modelType := .llm
  inputSchema := schemaPrompt
  outputSchema := .obj []
  latency := latency
  costPerToken := none
  securityPolicy := .publicPolicy
  apiKey := apiKey
  status := status
  healthCheckUrl := none
  description := none
  tags := []
  createdAt := "t0"
  lastChecked := none

def modelA : ModelMetadata := fixModel "ma" "https://a.example/run" 100 none .offline
def modelB : ModelMetadata := fixModel "mb" "https://b.example/run" 100 none .offline
def modelC : ModelMetadata := fixModel "mc" "https://c.example/run" 100 none .offline
def modelKeyed : ModelMetadata :=
  fixModel "mk" "https://k.example/run" 100 (some "sk-1") .offline

/-- A pipeline node fixture. -/
def fixNode (id modelId : String) : PipelineNode where
  id := id
  modelId := modelId
  posX := 0
  posY := 0
  config := []

/-- A context whose `fetch` oracle is given as a function. -/
def fixCtx (oracle : ℕ → FetchBehavior) : Ctx where
  oracle := oracle
  now := "t1"
  freshExecId := "exec_1"
  startedAt := "t0"
  runElapsed := 5

/-- A store state with the given models and nothing else. -/
def fixSt (models : List ModelMetadata) : St where
  models := models
  executions := []
  trace := []
  fetchCount := 0

/-! ### C5 -/

/-- C5: invoking a `modelId` absent from the directory throws
`Model <id> not found` immediately, before the `try` block: no fetch is
issued, no retry happens, and the whole state — in particular every
model's status and latency — is returned unchanged. -/
theorem invoke_absent_model_fails_without_side_effects (ctx : Ctx) (modelId : String)
    (input : Json) (st : St) (h : getModelById modelId st.models = none) :
    invokeSingleModel ctx modelId input st =
      (.error (.modelNotFound modelId), st) := by
  rw [invokeSingleModel, h]

/-- Witness for C5 at a concrete empty directory. -/
theorem invoke_absent_model_fails_without_side_effects_witness :
    getModelById "missing" (fixSt []).models = none ∧
    invokeSingleModel (fixCtx fun _ => ⟨.netFailure, 0⟩) "missing" Json.null (fixSt []) =
      (.error (.modelNotFound "missing"), fixSt []) :=
  ⟨rfl, invoke_absent_model_fails_without_side_effects
    (fixCtx fun _ => ⟨.netFailure, 0⟩) "missing" Json.null (fixSt []) rfl⟩

/-! ### C6 -/

/-- C6: a successful invocation of a present model with prior latency `P`
and observed latency `L` leaves the directory entry with latency
`Math.round((P + L) / 2)` and status `online`. -/
theorem invoke_success_rolls_latency_and_sets_online (ctx : Ctx) (modelId : String)
    (input : Json) (st : St) (model : ModelMetadata) (s : String) (out : Json)
    (hm : getModelById modelId st.models = some model)
    (hb : (ctx.oracle st.fetchCount).result = .reply true s (some out)) :
    (invokeSingleModel ctx modelId input st).1 = .ok out ∧
    ∃ updated : ModelMetadata,
      getModelById modelId ((invokeSingleModel ctx modelId input st).2).models =
        some updated ∧
      updated.latency =
        jsRound ((model.latency + ((ctx.oracle st.fetchCount).elapsed : ℚ)) / 2) ∧
      updated.status = .online := by
  rw [invokeSingleModel, hm]
  simp only [hb]
  have hfound := updateModel_found modelId
    { latency := some (jsRound ((model.latency + ((ctx.oracle st.fetchCount).elapsed : ℚ)) / 2)),
      status := some .online, lastChecked := some (some ctx.now) }
    rfl st.models model hm
  exact ⟨rfl, applyUpdate model _, hfound.2, rfl, rfl⟩

/-- Witness for C6: prior latency 100, observed latency 300, rolling
average 200, status flips from `offline` to `online`. -/
theorem invoke_success_rolls_latency_and_sets_online_witness :
    (invokeSingleModel (fixCtx fun _ => ⟨.reply true "OK" (some (.str "r")), 300⟩)
        "ma" Json.null (fixSt [modelA])).1 = .ok (.str "r") ∧
    ∃ updated : ModelMetadata,
      getModelById "ma"
          ((invokeSingleModel (fixCtx fun _ => ⟨.reply true "OK" (some (.str "r")), 300⟩)
              "ma" Json.null (fixSt [modelA])).2).models = some updated ∧
      updated.latency =
        jsRound ((modelA.latency +
          (((fixCtx fun _ => ⟨.reply true "OK" (some (.str "r")), 300⟩).oracle
              (fixSt [modelA]).fetchCount).elapsed : ℚ)) / 2) ∧
      updated.status = .online :=
  invoke_success_rolls_latency_and_sets_online
    (fixCtx fun _ => ⟨.reply true "OK" (some (.str "r")), 300⟩)
    "ma" Json.null (fixSt [modelA]) modelA "OK" (.str "r") rfl rfl

/-! ### C7 -/

/-- C7: `executePipeline` never raises on node failure: it always returns
an execution record whose status is terminal (`completed` or `failed`,
never `running` or `pending`), and pushes exactly that one record onto the
stored execution history. -/
theorem executePipeline_terminal_status_and_single_append (ctx : Ctx) (pipe : Pipeline)
    (input : Json) (st : St) :
    ((executePipeline ctx pipe input st).1.status = .completed ∨
      (executePipeline ctx pipe input st).1.status = .failed) ∧
    ((executePipeline ctx pipe input st).2).executions =
      st.executions ++ [(executePipeline ctx pipe input st).1] := by
  have hexec := runNodes_executions ctx pipe.nodes input st
  rw [executePipeline]
  cases hr : (runNodes ctx pipe.nodes input st).1 with
  | ok v => simp [hr, hexec]
  | error e => simp [hr, hexec]

/-! ### C8 -/

/-- C8: whenever an invocation reaches the network step (the model
resolved), the single issued request is an HTTP `POST` to the model's
endpoint with a `Content-Type: application/json` header, an
`Authorization: Bearer <apiKey>` header exactly when the model has a
configured (truthy) credential, and the input payload as its serialized
body — regardless of how the call then turns out. -/
theorem invoke_wire_shape (ctx : Ctx) (modelId : String) (input : Json) (st : St)
    (model : ModelMetadata) (hm : getModelById modelId st.models = some model) :
    ((invokeSingleModel ctx modelId input st).2).trace =
      st.trace ++ [mkRequest model input] ∧
    (mkRequest model input).method = "POST" ∧
    (mkRequest model input).url = model.endpoint ∧
    lookupHeader (mkRequest model input) "Content-Type" = some "application/json" ∧
    (lookupHeader (mkRequest model input) "Authorization").isSome =
      apiKeyTruthy model.apiKey ∧
    (∀ k, model.apiKey = some k → (k == "") = false →
      lookupHeader (mkRequest model input) "Authorization" = some ("Bearer " ++ k)) ∧
    (mkRequest model input).body = input := by
  refine ⟨?_, rfl, rfl, rfl, ?_, ?_, rfl⟩
  · rw [invokeSingleModel, hm]
    cases hb : (ctx.oracle st.fetchCount).result with
    | netFailure => simp [hb, markError]
    | reply ok statusText jsonBody =>
      cases ok with
      | false => simp [hb, markError]
      | true =>
        cases jsonBody with
        | none => simp [hb, markError]
        | some output => simp [hb]
  · cases hk : model.apiKey with
    | none => simp [mkRequest, lookupHeader, apiKeyTruthy, hk]
    | some k =>
      by_cases hke : k == ""
      · simp [mkRequest, lookupHeader, apiKeyTruthy, hk, hke]
      · simp [mkRequest, lookupHeader, apiKeyTruthy, hk, hke]
  · intro k hk hke
    simp [mkRequest, lookupHeader, hk, hke]

/-- Witness for C8 at a model with credential `sk-1`. -/
theorem invoke_wire_shape_witness :
    ((invokeSingleModel (fixCtx fun _ => ⟨.netFailure, 0⟩) "mk" (.str "x")
        (fixSt [modelKeyed])).2).trace =
      (fixSt [modelKeyed]).trace ++ [mkRequest modelKeyed (.str "x")] ∧
    (mkRequest modelKeyed (.str "x")).method = "POST" ∧
    (mkRequest modelKeyed (.str "x")).url = modelKeyed.endpoint ∧
    lookupHeader (mkRequest modelKeyed (.str "x")) "Content-Type" =
      some "application/json" ∧
    lookupHeader (mkRequest modelKeyed (.str "x")) "Authorization" =
      some ("Bearer " ++ "sk-1") := by
  obtain ⟨h1, h2, h3, h4, _, h6, _⟩ :=
    invoke_wire_shape (fixCtx fun _ => ⟨.netFailure, 0⟩) "mk" (.str "x")
      (fixSt [modelKeyed]) modelKeyed rfl
  exact ⟨h1, h2, h3, h4, h6 "sk-1" rfl rfl⟩

/-! ### C10 -/

/-- C10: `ModelRegistry.updateModel` with an absent id returns `null` and
leaves the stored list untouched; with a present id it merges the supplied
fields into the first matching record, leaves every other record in place,
returns the merged record, and the merge keeps every field the update does
not mention. -/
theorem updateModel_frame (id : String) (u : ModelUpdate) :
    (∀ models : List ModelMetadata, (∀ m ∈ models, (m.id == id) = false) →
      updateModel id u models = (none, models)) ∧
    (∀ (pre post : List ModelMetadata) (m : ModelMetadata),
      (∀ p ∈ pre, (p.id == id) = false) → (m.id == id) = true →
      updateModel id u (pre ++ m :: post) =
        (some (applyUpdate m u), pre ++ applyUpdate m u :: post)) ∧
    (∀ m : ModelMetadata,
      (u.id = none → (applyUpdate m u).id = m.id) ∧
      (u.name = none → (applyUpdate m u).name = m.name) ∧
      (u.owner = none → (applyUpdate m u).owner = m.owner) ∧
      (u.endpoint = none → (applyUpdate m u).endpoint = m.endpoint) ∧
      (u.modelType = none → (applyUpdate m u).modelType = m.modelType) ∧
      (u.inputSchema = none → (applyUpdate m u).inputSchema = m.inputSchema) ∧
      (u.outputSchema = none → (applyUpdate m u).outputSchema = m.outputSchema) ∧
      (u.latency = none → (applyUpdate m u).latency = m.latency) ∧
      (u.costPerToken = none → (applyUpdate m u).costPerToken = m.costPerToken) ∧
      (u.securityPolicy = none → (applyUpdate m u).securityPolicy = m.securityPolicy) ∧
      (u.apiKey = none → (applyUpdate m u).apiKey = m.apiKey) ∧
      (u.status = none → (applyUpdate m u).status = m.status) ∧
      (u.healthCheckUrl = none → (applyUpdate m u).healthCheckUrl = m.healthCheckUrl) ∧
      (u.description = none → (applyUpdate m u).description = m.description) ∧
      (u.tags = none → (applyUpdate m u).tags = m.tags) ∧
      (u.createdAt = none → (applyUpdate m u).createdAt = m.createdAt) ∧
      (u.lastChecked = none → (applyUpdate m u).lastChecked = m.lastChecked)) := by
  refine ⟨?_, ?_, ?_⟩
  · intro models
    induction models with
    | nil => intro _; rfl
    | cons x xs ih =>
      intro h
      rw [updateModel_cons, if_neg (by simp [h x (List.mem_cons_self x xs)]),
        ih (fun m hm => h m (List.mem_cons_of_mem x hm))]
  · intro pre
    induction pre with
    | nil =>
      intro post m _ hm
      simpa using (updateModel_cons id u m post).trans (if_pos hm)
    | cons p pre' ih =>
      intro post m hpre hm
      have hp : (p.id == id) = false := hpre p (List.mem_cons_self p pre')
      have hrest := ih post m (fun q hq => hpre q (List.mem_cons_of_mem p hq)) hm
      rw [List.cons_append, updateModel_cons, if_neg (by simp [hp]), hrest]
      rfl
  · intro m
    refine ⟨?_, ?_, ?_, ?_, ?_, ?_, ?_, ?_, ?_, ?_, ?_, ?_, ?_, ?_, ?_, ?_, ?_⟩ <;>
      (intro h; simp [applyUpdate, h])

/-- Witness for C10: the absent case at an empty store, and the present
case updating the middle model of a three-model store. -/
theorem updateModel_frame_witness :
    updateModel "zz" { status := some .error } [] =
      (none, []) ∧
    updateModel "mb" { status := some .error } [modelA, modelB, modelC] =
      (some (applyUpdate modelB { status := some .error }),
        [modelA, applyUpdate modelB { status := some .error }, modelC]) := by
  constructor
  · exact (updateModel_frame "zz" { status := some .error }).1 [] (by simp)
  · have h := (updateModel_frame "mb" { status := some .error }).2.1
      [modelA] [modelC] modelB (by decide) (by decide)
    simpa using h

/-! ### C1 -/

/-- A helper equation: one step of the node loop. -/
theorem runNodes_cons (ctx : Ctx) (n : PipelineNode) (rest : List PipelineNode)
    (cur : Json) (st : St) :
    runNodes ctx (n :: rest) cur st =
      match invokeSingleModel ctx n.modelId cur st with
      | (.ok out, st') => runNodes ctx rest out st'
      | (.error e, st') => (.error e, st') := rfl

/-- C1 (amended): on a 3-node pipeline where the first node's invocation
succeeds and the second's fails, `executePipeline` returns a `failed`
record, its `invocations` sequence is empty (the engine never records
invocation entries), and the third node's model is never invoked — the
network trace and fetch count stop at the state left by the second
node. -/
theorem executePipeline_midchain_failure (ctx : Ctx) (pipe : Pipeline) (input : Json)
    (st : St) (a b c : PipelineNode) (outA : Json) (e : InvokeError)
    (hnodes : pipe.nodes = [a, b, c])
    (hA : (invokeSingleModel ctx a.modelId input st).1 = .ok outA)
    (hB : (invokeSingleModel ctx b.modelId outA
      ((invokeSingleModel ctx a.modelId input st).2)).1 = .error e) :
    (executePipeline ctx pipe input st).1.status = .failed ∧
    (executePipeline ctx pipe input st).1.invocations = [] ∧
    ((executePipeline ctx pipe input st).2).trace =
      ((invokeSingleModel ctx b.modelId outA
        ((invokeSingleModel ctx a.modelId input st).2)).2).trace ∧
    ((executePipeline ctx pipe input st).2).fetchCount =
      ((invokeSingleModel ctx b.modelId outA
        ((invokeSingleModel ctx a.modelId input st).2)).2).fetchCount ∧
    ((executePipeline ctx pipe input st).2).executions =
      st.executions ++ [(executePipeline ctx pipe input st).1] := by
  rcases hA' : invokeSingleModel ctx a.modelId input st with ⟨resA, stA⟩
  rw [hA'] at hA hB
  simp only at hA hB
  subst hA
  rcases hB' : invokeSingleModel ctx b.modelId outA stA with ⟨resB, stB⟩
  rw [hB'] at hB
  simp only at hB
  subst hB
  have hAex : stA.executions = st.executions := by
    have := invokeSingleModel_executions ctx a.modelId input st
    rw [hA'] at this; exact this
  have hBex : stB.executions = stA.executions := by
    have := invokeSingleModel_executions ctx b.modelId outA stA
    rw [hB'] at this; exact this
  have hrun : runNodes ctx pipe.nodes input st = (.error e, stB) := by
    rw [hnodes, runNodes_cons, hA']
    show runNodes ctx [b, c] outA stA = (.error e, stB)
    rw [runNodes_cons, hB']
  simp [executePipeline, hrun, hA', hB', hBex, hAex]

/-- The store holding the three chain models. -/
def storeABC : St := fixSt [modelA, modelB, modelC]

/-- A linear pipeline A→B→C over the fixture models. -/
def pipeABC : Pipeline where
  id := "p1"
  name := "chain"
  description := none
  nodes := [fixNode "n1" "ma", fixNode "n2" "mb", fixNode "n3" "mc"]
  edges := [⟨"e1", "n1", "n2", none, none⟩, ⟨"e2", "n2", "n3", none, none⟩]
  createdAt := "t0"
  updatedAt := "t0"
  owner := "o"
  isPublic := false

/-- A network where the first call succeeds and every later call gets a
non-2xx response. -/
def ctxMidFail : Ctx :=
  fixCtx fun n =>
    if n == 0 then ⟨.reply true "OK" (some (.str "outA")), 100⟩
    else ⟨.reply false "Internal Server Error" none, 100⟩

/-- Witness for C1 (amended) on the concrete A→B→C fixture. -/
theorem executePipeline_midchain_failure_witness :
    (executePipeline ctxMidFail pipeABC (.str "in") storeABC).1.status = .failed ∧
    (executePipeline ctxMidFail pipeABC (.str "in") storeABC).1.invocations = [] := by
  have h := executePipeline_midchain_failure ctxMidFail pipeABC (.str "in") storeABC
    (fixNode "n1" "ma") (fixNode "n2" "mb") (fixNode "n3" "mc") (.str "outA")
    (.invocationFailed "Internal Server Error") rfl rfl rfl
  exact ⟨h.1, h.2.1⟩

/-- Counterexample to C1 as stated: on the concrete A→B→C run where A's
invocation succeeds and B's fails, the returned record holds 0 invocation
entries, not 2. -/
theorem executePipeline_midchain_failure_counterexample :
    (invokeSingleModel ctxMidFail "ma" (.str "in") storeABC).1 = .ok (.str "outA") ∧
    (invokeSingleModel ctxMidFail "mb" (.str "outA")
      ((invokeSingleModel ctxMidFail "ma" (.str "in") storeABC).2)).1 =
      .error (.invocationFailed "Internal Server Error") ∧
    (executePipeline ctxMidFail pipeABC (.str "in") storeABC).1.status = .failed ∧
    (executePipeline ctxMidFail pipeABC (.str "in") storeABC).1.invocations.length = 0 ∧
    (executePipeline ctxMidFail pipeABC (.str "in") storeABC).1.invocations.length ≠ 2 :=
  ⟨rfl, rfl, rfl, rfl, by decide⟩

/-! ### C4 -/

/-- C4 (amended): every invocation of a model present in the directory
issues exactly one network attempt — the engine has no retry logic, so a
sustained upstream error still yields a single attempt — and an absent
`modelId` issues zero attempts. -/
theorem invoke_single_attempt (ctx : Ctx) (modelId : String) (input : Json) (st : St) :
    (∀ model, getModelById modelId st.models = some model →
      ((invokeSingleModel ctx modelId input st).2).fetchCount = st.fetchCount + 1) ∧
    (getModelById modelId st.models = none →
      ((invokeSingleModel ctx modelId input st).2).fetchCount = st.fetchCount) := by
  constructor
  · intro model hm
    rw [invokeSingleModel, hm]
    cases hb : (ctx.oracle st.fetchCount).result with
    | netFailure => simp [hb, markError]
    | reply ok statusText jsonBody =>
      cases ok with
      | false => simp [hb, markError]
      | true =>
        cases jsonBody with
        | none => simp [hb, markError]
        | some output => simp [hb]
  · intro hm
    rw [invokeSingleModel, hm]

/-- A network that always answers with a non-2xx response. -/
def ctxAlwaysFail : Ctx := fixCtx fun _ => ⟨.reply false "Bad Gateway" none, 50⟩

/-- Witness for C4 (amended): one attempt for a present model under a
sustained upstream error, zero attempts for an absent id. -/
theorem invoke_single_attempt_witness :
    ((invokeSingleModel ctxAlwaysFail "ma" Json.null (fixSt [modelA])).2).fetchCount =
      (fixSt [modelA]).fetchCount + 1 ∧
    ((invokeSingleModel ctxAlwaysFail "zz" Json.null (fixSt [modelA])).2).fetchCount =
      (fixSt [modelA]).fetchCount :=
  ⟨(invoke_single_attempt ctxAlwaysFail "ma" Json.null (fixSt [modelA])).1 modelA rfl,
    (invoke_single_attempt ctxAlwaysFail "zz" Json.null (fixSt [modelA])).2 rfl⟩

/-- Counterexample to C4 as stated: under a sustained upstream error the
code performs 1 attempt, not `maxRetries + 1 = 3` (default
`maxRetries = 2`) — no retry machinery exists. -/
theorem invoke_single_attempt_counterexample :
    (invokeSingleModel ctxAlwaysFail "ma" Json.null (fixSt [modelA])).1 =
      .error (.invocationFailed "Bad Gateway") ∧
    ((invokeSingleModel ctxAlwaysFail "ma" Json.null (fixSt [modelA])).2).fetchCount = 1 ∧
    (1 : ℕ) ≠ 2 + 1 :=
  ⟨rfl, rfl, by decide⟩

/-! ### C9 -/

/-- C9 (amended): `registerModel` never sets or alters the lifecycle
status: the newly created record carries exactly the caller-supplied
status (the registration form supplies `offline`, but
`initializeSampleModels` supplies `online`), with the generated id, the
creation timestamp, no `lastChecked`, and the record appended to the
store. -/
theorem registerModel_keeps_caller_status (payload : ModelRegistrationData)
    (freshId createdAt : String) (models : List ModelMetadata) :
    ((registerModel payload freshId createdAt models).1).status = payload.status ∧
    ((registerModel payload freshId createdAt models).1).id = freshId ∧
    ((registerModel payload freshId createdAt models).1).createdAt = createdAt ∧
    ((registerModel payload freshId createdAt models).1).lastChecked = none ∧
    (registerModel payload freshId createdAt models).2 =
      models ++ [(registerModel payload freshId createdAt models).1] :=
  ⟨rfl, rfl, rfl, rfl, rfl⟩

/-- The `GPT-4 Turbo` sample payload that `initializeSampleModels`
registers, with `status: 'online'` at creation time. -/
def gpt4TurboSample : ModelRegistrationData where
  name := "GPT-4 Turbo"
  owner := "OpenAI"
  endpoint := "https://api.openai.com/v1/chat/completions"
  modelType := .llm
  inputSchema :=
    .obj [("type", .str "object"),
          ("properties", .obj [("messages", .obj [("type", .str "array")]),
                               ("temperature", .obj [("type", .str "number")])])]
  outputSchema :=
    .obj [("type", .str "object"),
          ("properties", .obj [("choices", .obj [("type", .str "array")])])]
  latency := 2000
  costPerToken := some (3 / 100000)
  securityPolicy := .publicPolicy
  apiKey := none
  status := .online
  healthCheckUrl := none
  description := some "Advanced language model for complex reasoning tasks"
  tags := ["openai", "gpt-4", "language-model"]

/-- Counterexample to C9 as stated: registering the bundled `GPT-4 Turbo`
sample creates a record whose status is `online`, not `offline`. -/
theorem registerModel_online_at_creation_counterexample :
    ((registerModel gpt4TurboSample "model_1" "2024-01-01T00:00:00.000Z" []).1).status =
      .online ∧
    ModelStatus.online ≠ ModelStatus.offline :=
  ⟨rfl, by decide⟩

/-! ### C2 -/

/-- A network that always answers 200 with a JSON body. -/
def ctxAlwaysOk : Ctx := fixCtx fun _ => ⟨.reply true "OK" (some (.str "resp")), 100⟩

/-- C2 (code bug): the engine performs no input-schema validation.  The
empty object fails the fixture model's input schema (required `prompt`
missing), yet invoking the model issues the network call anyway, and the
directory status of the model — `offline` beforehand — is flipped to
`online` by the schema-invalid call. -/
theorem invoke_skips_input_validation :
    (validate modelA.inputSchema (Json.obj [])).isSome = true ∧
    ((invokeSingleModel ctxAlwaysOk "ma" (Json.obj []) (fixSt [modelA])).2).fetchCount = 1 ∧
    ((invokeSingleModel ctxAlwaysOk "ma" (Json.obj []) (fixSt [modelA])).2).trace =
      [mkRequest modelA (Json.obj [])] ∧
    modelA.status = .offline ∧
    (getModelById "ma"
        ((invokeSingleModel ctxAlwaysOk "ma" (Json.obj []) (fixSt [modelA])).2).models).map
      (fun m => m.status) = some .online :=
  ⟨rfl, rfl, rfl, rfl, rfl⟩

/-! ### C3 -/

/-- A two-node pipeline whose edge set is the cycle n1→n2→n1. -/
def pipeCyclic : Pipeline where
  id := "p2"
  name := "cyclic"
  description := none
  nodes := [fixNode "n1" "ma", fixNode "n2" "mb"]
  edges := [⟨"e1", "n1", "n2", none, none⟩, ⟨"e2", "n2", "n1", none, none⟩]
  createdAt := "t0"
  updatedAt := "t0"
  owner := "o"
  isPublic := false

/-- C3 (code bug): the execution engine never consults the edge set, so a
graph containing a cycle — rejected by the spec's Graph Resolver — is
executed anyway: both nodes are invoked over the network (2 requests) and
the run completes with status `completed` instead of failing with zero
invocations and no network activity. -/
theorem executePipeline_executes_cyclic_graph :
    resolveGraph pipeCyclic.nodes pipeCyclic.edges = .error .cycle ∧
    (executePipeline ctxAlwaysOk pipeCyclic Json.null (fixSt [modelA, modelB])).1.status =
      .completed ∧
    ((executePipeline ctxAlwaysOk pipeCyclic Json.null (fixSt [modelA, modelB])).2).trace.length =
      2 ∧
    (executePipeline ctxAlwaysOk pipeCyclic Json.null (fixSt [modelA, modelB])).1.invocations =
      [] :=
  ⟨rfl, rfl, rfl, rfl⟩

end IoM
